import Mathlib

/-!
# Verification of the TV-show cleaning and reporting pipeline

Shallow embedding of `src/proye.py`: a pandas-based script that cleans a
table of TV shows and produces reporting aggregations.  A dataframe is a
list of column names together with a list of rows; a cell is null (`na`),
a string, or a number (modelled as `Rat`).  Fallible pandas operations
(`KeyError` on a missing column, `TypeError`/`AttributeError` on bad
dtypes) are modelled with `Option`, `none` standing for a raised
exception.  String normalisation models Python `str.strip`/`str.lower`
on the ASCII range (the data's column names are ASCII), and numeric
coercion models decimal `float` parsing (sign, integer part, optional
fractional part), which covers all numerals occurring in the data.
-/

/-- A cell of the dataframe: missing (`NaN`/`pd.NA`), text, or numeric. -/
inductive Value where
  | na : Value
  | str : String → Value
  | num : Rat → Value
deriving DecidableEq

/-- A dataframe: ordered column labels and rows of cells. -/
structure DF where
  cols : List String
  rows : List (List Value)
deriving DecidableEq

/-- A dataframe is well formed when every row has one cell per column. -/
def DF.WF (df : DF) : Prop :=
  ∀ r ∈ df.rows, r.length = df.cols.length

/-! ## Python string primitives -/

/-- ASCII whitespace, as stripped by Python `str.strip()`. -/
def isSpaceB (c : Char) : Bool :=
  c = ' ' || c = '\t' || c = '\n' || c = '\r' || c = '\x0b' || c = '\x0c'

/-- Python `str.lower()` on one character (ASCII range). -/
def lowerChar (c : Char) : Char :=
  if 65 ≤ c.toNat ∧ c.toNat ≤ 90 then Char.ofNat (c.toNat + 32) else c

/-- Strip leading and trailing whitespace from a character list. -/
def stripChars (l : List Char) : List Char :=
  ((l.dropWhile isSpaceB).reverse.dropWhile isSpaceB).reverse

/-- Column-name normalisation of `proye.py` line 17:
`df.columns.str.strip().str.lower()`. -/
def normName (s : String) : String :=
  ⟨(stripChars s.data).map lowerChar⟩

/-- Python `s.split(",")`, accumulator-style over the characters. -/
def splitCommaAux : List Char → List Char → List (List Char)
  | [], acc => [acc.reverse]
  | c :: rest, acc =>
      if c = ',' then acc.reverse :: splitCommaAux rest []
      else splitCommaAux rest (c :: acc)

/-- Python `s.split(",")`. -/
def pySplitComma (s : String) : List String :=
  (splitCommaAux s.data []).map fun l => ⟨l⟩

/-- Does `pat` occur as a prefix of `l`? -/
def isPrefixOfL : List Char → List Char → Bool
  | [], _ => true
  | _ :: _, [] => false
  | a :: as, b :: bs => a = b && isPrefixOfL as bs

/-- Does `pat` occur as a contiguous substring of `l`?
Models Python `pat in s`. -/
def containsL (pat : List Char) : List Char → Bool
  | [] => isPrefixOfL pat []
  | b :: bs => isPrefixOfL pat (b :: bs) || containsL pat bs

/-- Python substring test `"title" in col` of `proye.py` line 22. -/
def containsTitle (s : String) : Bool :=
  containsL "title".data s.data

/-- Numeric value of a list of decimal digits. -/
def digitsToNat (l : List Char) : Nat :=
  l.foldl (fun a c => a * 10 + (c.toNat - 48)) 0

/-- Decimal `float` parsing as used by `pd.to_numeric` on strings:
optional sign, digits, optional `.` and fractional digits.
(Exponents and `inf`/`nan` spellings are not modelled; no numeral in
the claims uses them.) -/
def parseNum (s : String) : Option Rat :=
  let go : List Char → Rat → Option Rat := fun l sign =>
    let ip := l.takeWhile Char.isDigit
    match l.dropWhile Char.isDigit with
    | [] => if ip.isEmpty then none else some (sign * (digitsToNat ip : Rat))
    | '.' :: fp =>
        if fp.all Char.isDigit ∧ ¬(ip.isEmpty ∧ fp.isEmpty) then
          some (sign * ((digitsToNat ip : Rat) +
            (digitsToNat fp : Rat) / ((10 ^ fp.length : Nat) : Rat)))
        else none
    | _ => none
  match s.data with
  | '-' :: rest => go rest (-1)
  | '+' :: rest => go rest 1
  | l => go l 1

/-- First run of four consecutive decimal digits, if any: the match of
the regular expression `(\d{4})` in `proye.py` line 131. -/
def firstFourDigits : List Char → Option (List Char)
  | a :: b :: c :: d :: rest =>
      if a.isDigit ∧ b.isDigit ∧ c.isDigit ∧ d.isDigit then some [a, b, c, d]
      else firstFourDigits (b :: c :: d :: rest)
  | _ => none

/-- `extract_year`: first 4-digit run of the text, coerced to a number
(`proye.py` lines 131-133 per cell). -/
def extract_year (s : String) : Option Nat :=
  (firstFourDigits s.data).map digitsToNat

/-! ## Dataframe primitives -/

/-- Cell of a row at a column position (`na` when the row is too short,
which never happens on well-formed dataframes). -/
def cell (r : List Value) (i : Nat) : Value :=
  r.getD i Value.na

/-- Number of columns carrying a given label. -/
def countOcc (c : String) (cols : List String) : Nat :=
  (cols.filter (fun x => x = c)).length

/-- Position of a single-occurrence column label; `none` models the
`KeyError` of a missing label and the `TypeError` pandas raises when a
duplicated label is used where a single column is expected. -/
def uniqueIdx (df : DF) (c : String) : Option Nat :=
  if countOcc c df.cols = 1 then df.cols.findIdx? (fun x => x = c) else none

/-- The cells of a single-occurrence column, top to bottom
(`df[c]` as a series). -/
def getColValsU (df : DF) (c : String) : Option (List Value) :=
  (uniqueIdx df c).map fun i => df.rows.map fun r => cell r i

/-- `df[c] = vals`: overwrite the first column labelled `c`, or append a
new column when the label is absent. -/
def setCol (c : String) (vals : List Value) (df : DF) : DF :=
  match df.cols.findIdx? (fun x => x = c) with
  | some i => { df with rows := List.zipWith (fun r v => r.set i v) df.rows vals }
  | none => { cols := df.cols ++ [c],
              rows := List.zipWith (fun r v => r ++ [v]) df.rows vals }

/-! ## The cleaning pipeline (`cleaning`, `proye.py` lines 8-39) -/

/-- Line 17: normalise all column names. -/
def normCols (df : DF) : DF :=
  { df with cols := df.cols.map normName }

/-- Line 19 per cell: `df.replace("NaN", pd.NA)`. -/
def replaceVal (v : Value) : Value :=
  if v = Value.str "NaN" then Value.na else v

/-- Line 19: replace every cell equal to the literal string `"NaN"`. -/
def replaceNaN (df : DF) : DF :=
  { df with rows := df.rows.map (List.map replaceVal) }

/-- Lines 21-24: if no column is named `title`, rename the first column
whose name contains the substring `"title"`; otherwise leave the frame
untouched. -/
def renameTitle (df : DF) : DF :=
  if "title" ∈ df.cols then df
  else
    match df.cols.find? containsTitle with
    | some c => { df with cols := df.cols.map fun x => if x = c then "title" else x }
    | none => df

/-- The required columns of line 27 (`columnas_necesarias`). -/
def requiredCols : List String :=
  ["title", "episodeduration(in minutes)", "genres", "rating"]

/-- Does the row have a non-null cell at every column position whose
label belongs to `subset`? -/
def rowOkOn (cols : List String) (subset : List String) (r : List Value) : Bool :=
  (List.range cols.length).all fun i =>
    if cols.getD i "" ∈ subset then cell r i ≠ Value.na else true

/-- Line 32: `df.dropna(subset=...)`.  pandas raises `KeyError` when a
subset label is missing from the columns, modelled by `none`. -/
def dropnaSubset (subset : List String) (df : DF) : Option DF :=
  if subset.all fun c => df.cols.contains c then
    some { df with rows := df.rows.filter (rowOkOn df.cols subset) }
  else none

/-- Per-cell numeric coercion of `pd.to_numeric(..., errors="coerce")`. -/
def toNumericVal : Value → Value
  | Value.na => Value.na
  | Value.num q => Value.num q
  | Value.str s =>
      match parseNum s with
      | some q => Value.num q
      | none => Value.na

/-- Lines 34 and 36: `df[c] = pd.to_numeric(df[c], errors="coerce")`.
`none` models the `KeyError` on a missing label (and the `TypeError`
pandas raises when the label is duplicated and `df[c]` is a frame). -/
def setNumericCol (c : String) (df : DF) : Option DF :=
  (uniqueIdx df c).map fun i =>
    { df with rows := df.rows.map fun r => r.set i (toNumericVal (cell r i)) }

/-- Line 38: `df.dropna()` — drop every row with a null in any column. -/
def dropnaAll (df : DF) : DF :=
  { df with rows := df.rows.filter fun r =>
      (List.range df.cols.length).all fun i => cell r i ≠ Value.na }

/-- The cleaning function (`cleaning`, lines 8-39), acting on the value
of the frame; `none` models an uncaught exception. -/
def cleaning (df : DF) : Option DF := do
  let df1 := renameTitle (replaceNaN (normCols df))
  let df2 ← dropnaSubset requiredCols df1
  let df3 ← setNumericCol "episodeduration(in minutes)" df2
  let df4 ← setNumericCol "rating" df3
  return dropnaAll df4

/-! ## Primary-genre extraction -/

/-- The guarded lambda of `proye.py` lines 46 and 139:
`x.split(",")[0] if isinstance(x, str) else x`. -/
def primaryGenre (v : Value) : Value :=
  match v with
  | Value.str s => Value.str ((pySplitComma s).headD "")
  | v => v

/-- The unguarded lambda of `proye.py` line 114: `x.split(",")[0]`.
A non-string raises `AttributeError`, modelled by `none`. -/
def splitHead : Value → Option Value
  | Value.str s => some (Value.str ((pySplitComma s).headD ""))
  | _ => none

/-! ## Rating-by-genre aggregation (`rating_vs_genre`, lines 41-54) -/

/-- Distinct elements of a list in first-occurrence order. -/
def dedupF (l : List Value) : List Value :=
  l.foldl (fun acc k => if k ∈ acc then acc else acc ++ [k]) []

/-- Arithmetic mean of a list of numbers. -/
def meanOf (l : List Rat) : Rat :=
  l.sum / (l.length : Rat)

/-- The numeric rating cells paired with group key `k` (pandas `mean`
skips nulls). -/
def ratingsFor (keys : List Value) (rs : List Value) (k : Value) : List Rat :=
  ((keys.zip rs).filter fun p => p.1 = k).filterMap fun p =>
    match p.2 with
    | Value.num q => some q
    | _ => none

/-- Line 48: `df.groupby("generoprincipal")["rating"].mean()
.sort_values(ascending=False)` on the frame extended with the primary
genre of line 46.  Group keys are the distinct primary genres (null
keys are dropped by `groupby`); the result is sorted by descending
mean.  pandas leaves the order of tied means unspecified (an unstable
quicksort); the model pins the stable order on first occurrence. -/
def promedioGenero (df : DF) : Option (List (Value × Rat)) := do
  let gs ← getColValsU df "genres"
  let rs ← getColValsU df "rating"
  let keys := gs.map primaryGenre
  let ks := dedupF (keys.filter fun k => k ≠ Value.na)
  let pairs := ks.map fun k => (k, meanOf (ratingsFor keys rs k))
  return List.insertionSort (fun p q : Value × Rat => q.2 ≤ p.2) pairs

/-! ## Top 15 and bottom 15 by rating (`rating_vs_show`,
`rating_vs_show_2`, lines 67-91) -/

/-- Sort key of a row: its rating cell when numeric. -/
def keyAt (i : Nat) (r : List Value) : Option Rat :=
  match cell r i with
  | Value.num q => some q
  | _ => none

/-- Descending comparison on optional ratings; nulls sort last
(pandas `na_position="last"`). -/
def optLeDesc : Option Rat → Option Rat → Bool
  | some a, some b => decide (b ≤ a)
  | some _, none => true
  | none, some _ => false
  | none, none => true

/-- Ascending comparison on optional ratings; nulls sort last. -/
def optLeAsc : Option Rat → Option Rat → Bool
  | some a, some b => decide (a ≤ b)
  | some _, none => true
  | none, some _ => false
  | none, none => true

/-- Row order used by `sort_values("rating", ascending=False)`. -/
def rowLeDesc (i : Nat) (r s : List Value) : Prop :=
  optLeDesc (keyAt i r) (keyAt i s) = true

/-- Row order used by `sort_values("rating", ascending=True)`. -/
def rowLeAsc (i : Nat) (r s : List Value) : Prop :=
  optLeAsc (keyAt i r) (keyAt i s) = true

instance (i : Nat) : DecidableRel (rowLeDesc i) :=
  fun r s => instDecidableEqBool (optLeDesc (keyAt i r) (keyAt i s)) true

instance (i : Nat) : DecidableRel (rowLeAsc i) :=
  fun r s => instDecidableEqBool (optLeAsc (keyAt i r) (keyAt i s)) true

instance (i : Nat) : IsTotal (List Value) (rowLeDesc i) :=
  ⟨fun r s => by
    have htot : ∀ a b : Option Rat, optLeDesc a b = true ∨ optLeDesc b a = true := by
      intro a b
      cases a <;> cases b <;> simp [optLeDesc] <;> exact le_total _ _
    exact htot (keyAt i r) (keyAt i s)⟩

instance (i : Nat) : IsTrans (List Value) (rowLeDesc i) :=
  ⟨fun r s t h1 h2 => by
    have htr : ∀ {a b c : Option Rat}, optLeDesc a b = true → optLeDesc b c = true →
        optLeDesc a c = true := by
      intro a b c ha hb
      cases a <;> cases b <;> cases c <;> simp_all [optLeDesc] <;> exact le_trans hb ha
    exact htr h1 h2⟩

instance (i : Nat) : IsTotal (List Value) (rowLeAsc i) :=
  ⟨fun r s => by
    have htot : ∀ a b : Option Rat, optLeAsc a b = true ∨ optLeAsc b a = true := by
      intro a b
      cases a <;> cases b <;> simp [optLeAsc] <;> exact le_total _ _
    exact htot (keyAt i r) (keyAt i s)⟩

instance (i : Nat) : IsTrans (List Value) (rowLeAsc i) :=
  ⟨fun r s t h1 h2 => by
    have htr : ∀ {a b c : Option Rat}, optLeAsc a b = true → optLeAsc b c = true →
        optLeAsc a c = true := by
      intro a b c ha hb
      cases a <;> cases b <;> cases c <;> simp_all [optLeAsc] <;> exact le_trans ha hb
    exact htr h1 h2⟩

/-- Line 72: `df.sort_values("rating", ascending=False).head(15)` —
the frame the top-15 bar chart is drawn from. -/
def ratingVsShowLocal (df : DF) : Option DF :=
  (uniqueIdx df "rating").map fun i =>
    { df with rows := (List.insertionSort (rowLeDesc i) df.rows).take 15 }

/-- Line 85: `df.sort_values("rating", ascending=True).head(15)` —
the frame the bottom-15 bar chart is drawn from. -/
def ratingVsShow2Local (df : DF) : Option DF :=
  (uniqueIdx df "rating").map fun i =>
    { df with rows := (List.insertionSort (rowLeAsc i) df.rows).take 15 }

/-! ## Genre-by-year stage (`genre_vs_year`, lines 122-161) -/

/-- Decimal digits of a natural number (auxiliary, fuel-driven). -/
def natDigitsAux : Nat → Nat → List Char
  | 0, _ => []
  | _ + 1, 0 => []
  | fuel + 1, n => natDigitsAux fuel (n / 10) ++ [Char.ofNat (48 + n % 10)]

/-- Decimal rendering of a natural number. -/
def natToDigits (n : Nat) : String :=
  if n = 0 then "0" else ⟨natDigitsAux (n + 1) n⟩

/-- Decimal digits of the fractional part `r / d` (auxiliary,
fuel-driven long division). -/
def fracDigits : Nat → Nat → Nat → List Char
  | 0, _, _ => []
  | _ + 1, 0, _ => []
  | fuel + 1, r, d => Char.ofNat (48 + r * 10 / d) :: fracDigits fuel (r * 10 % d) d

/-- Python `str` of a float value: sign, integer part, decimal point,
fractional digits (`"2010.0"` for an integral value).  Exponent
notation for very large or small magnitudes is not modelled. -/
def ratToPyStr (q : Rat) : String :=
  (if q.num < 0 then "-" else "") ++ natToDigits (q.num.natAbs / q.den) ++ "." ++
    (if q.num.natAbs % q.den = 0 then "0" else ⟨fracDigits 17 (q.num.natAbs % q.den) q.den⟩)

/-- `astype(str)` on one cell (line 131); `str` of a float null is
`"nan"`. -/
def valueToStr : Value → String
  | Value.str s => s
  | Value.na => "nan"
  | Value.num q => ratToPyStr q

/-- Lines 131-133 on one cell, fused: extract the first 4-digit run of
the cell's text, then coerce with `pd.to_numeric` — a 4-digit string
always coerces, to the number its digits denote. -/
def yearVal (v : Value) : Value :=
  match extract_year (valueToStr v) with
  | some n => Value.num (n : Rat)
  | none => Value.na

/-- Line 136 mask on one cell:
`(year_inicio >= 2001) & (year_inicio <= 2019)`; a null compares
false. -/
def yearInRange : Value → Bool
  | Value.num q => decide (2001 ≤ q) && decide (q ≤ 2019)
  | _ => false

/-- Lines 131-139: the year-filtered frame (with its derived
`year_inicio` and `generoprincipal` columns) that the heatmap counts
and the per-year mean-rating line are computed from. -/
def genreVsYearLocal (df : DF) : Option DF := do
  let ys ← getColValsU df "years"
  let df1 := setCol "year_inicio" (ys.map yearVal) df
  let i ← uniqueIdx df1 "year_inicio"
  let df2 := { df1 with rows := df1.rows.filter fun r => yearInRange (cell r i) }
  let gs ← getColValsU df2 "genres"
  return setCol "generoprincipal" (gs.map primaryGenre) df2

/-! ## Effects of the reporting functions on the shared frame

`run_analysis` passes the one cleaned frame to every reporting
function.  Each function below is modelled by the final state of that
shared object: column assignments on the shared frame mutate it, while
`df = ...` rebindings (lines 72, 85, 136) only change the local name,
so later statements of those functions act on a copy. -/

/-- `rating_vs_genre` (lines 41-54): line 46 assigns the
`generoprincipal` column on the shared frame; line 48 then reads
`rating` for the aggregation. -/
def ratingVsGenreEffect (df : DF) : Option DF := do
  let gs ← getColValsU df "genres"
  let df1 := setCol "generoprincipal" (gs.map primaryGenre) df
  let _ ← getColValsU df1 "rating"
  return df1

/-- `static_charts` (lines 93-120): lines 100 and 107 read the two
numeric columns, then line 114 assigns `generoprincipal` using the
unguarded split (which raises on a non-string cell). -/
def staticChartsEffect (df : DF) : Option DF := do
  let _ ← getColValsU df "rating"
  let _ ← getColValsU df "episodeduration(in minutes)"
  let gs ← getColValsU df "genres"
  let ps ← gs.mapM splitHead
  return setCol "generoprincipal" ps df

/-- `genre_vs_year` (lines 122-161): lines 131-133 assign the
`year_inicio` column on the shared frame; line 136 rebinds `df` to the
filtered copy, so the later `generoprincipal` assignment (line 139)
does not reach the shared frame. -/
def genreVsYearEffect (df : DF) : Option DF := do
  let ys ← getColValsU df "years"
  let df1 := setCol "year_inicio" (ys.map yearVal) df
  let _ ← uniqueIdx df1 "year_inicio"
  return df1

/-! ## Object-level model of `cleaning` for the mutation claim

Python passes the frame by reference and the pandas operations of
`cleaning` are all `inplace`; what protects the caller's object is the
`df = df.copy()` of line 14.  The heap is a list of frame objects, a
reference is an index, and every in-place statement writes through the
reference it holds. -/

/-- Read a frame object from the heap. -/
def heapGet (h : List DF) (r : Nat) : DF :=
  h.getD r { cols := [], rows := [] }

/-- Overwrite a frame object on the heap. -/
def heapSet (h : List DF) (r : Nat) (d : DF) : List DF :=
  h.set r d

/-- `cleaning` as it acts on the heap: the argument is the reference
`r`; line 14 allocates a copy and rebinds the local name to it; every
later in-place statement writes to the copy.  Returns the final heap
and the reference to the result (`none` when an exception escapes). -/
def cleaningProc (h0 : List DF) (r : Nat) : List DF × Option Nat :=
  let r1 := h0.length
  let h := h0 ++ [heapGet h0 r]
  let h := heapSet h r1 (normCols (heapGet h r1))
  let h := heapSet h r1 (replaceNaN (heapGet h r1))
  let h := heapSet h r1 (renameTitle (heapGet h r1))
  match dropnaSubset requiredCols (heapGet h r1) with
  | none => (h, none)
  | some d =>
    let h := heapSet h r1 d
    match setNumericCol "episodeduration(in minutes)" (heapGet h r1) with
    | none => (h, none)
    | some d =>
      let h := heapSet h r1 d
      match setNumericCol "rating" (heapGet h r1) with
      | none => (h, none)
      | some d =>
        let h := heapSet h r1 d
        let h := heapSet h r1 (dropnaAll (heapGet h r1))
        (h, some r1)

/-! ## Concrete scenario frames -/

/-- Scenario input of the cleaning claim: a good row and a row whose
rating field holds the non-numeric string `"N/A"`. -/
def dfNAscenario : DF :=
  { cols := ["title", "genres", "episodeduration(in minutes)", "rating", "years"],
    rows := [[Value.str "A", Value.str "Drama,Crime", Value.str "45", Value.str "8.5", Value.str "2010"],
             [Value.str "C", Value.str "Horror", Value.str "30", Value.str "N/A", Value.str "2011"]] }

/-- Expected cleaning output of `dfNAscenario`: the `"N/A"` row is gone
and the numeric columns are coerced. -/
def dfNAscenarioOut : DF :=
  { cols := ["title", "genres", "episodeduration(in minutes)", "rating", "years"],
    rows := [[Value.str "A", Value.str "Drama,Crime", Value.num 45, Value.num (17/2), Value.str "2010"]] }

/-- The two-record scenario of the aggregation claim. -/
def dfTwoShows : DF :=
  { cols := ["title", "genres", "episodeduration(in minutes)", "rating", "years"],
    rows := [[Value.str "A", Value.str "Drama,Crime", Value.num 45, Value.num (17/2), Value.str "2010"],
             [Value.str "B", Value.str "Comedy", Value.num 22, Value.num 7, Value.str "2012"]] }

/-- A frame with no title-like column at all. -/
def dfNoTitle : DF :=
  { cols := ["name", "genres", "episodeduration(in minutes)", "rating", "years"],
    rows := [[Value.str "A", Value.str "Drama", Value.num 45, Value.num 8, Value.str "2010"]] }

/-- A frame whose `genres` column holds a null: the unguarded split of
`static_charts` line 114 raises on it. -/
def dfNaGenre : DF :=
  { cols := ["genres", "episodeduration(in minutes)", "rating"],
    rows := [[Value.na, Value.num 1, Value.num 2]] }

/-- `dfTwoShows` sorted ascending by rating. -/
def dfTwoShowsBottom : DF :=
  { cols := ["title", "genres", "episodeduration(in minutes)", "rating", "years"],
    rows := [[Value.str "B", Value.str "Comedy", Value.num 22, Value.num 7, Value.str "2012"],
             [Value.str "A", Value.str "Drama,Crime", Value.num 45, Value.num (17/2), Value.str "2010"]] }

/-- The shared frame after `rating_vs_genre` ran on `dfTwoShows`: the
derived primary-genre column is appended. -/
def dfTwoShowsGenreOut : DF :=
  { cols := ["title", "genres", "episodeduration(in minutes)", "rating", "years", "generoprincipal"],
    rows := [[Value.str "A", Value.str "Drama,Crime", Value.num 45, Value.num (17/2), Value.str "2010", Value.str "Drama"],
             [Value.str "B", Value.str "Comedy", Value.num 22, Value.num 7, Value.str "2012", Value.str "Comedy"]] }

/-- The year-filtered frame `genre_vs_year` derives from `dfTwoShows`,
with its `year_inicio` and `generoprincipal` columns. -/
def dfTwoShowsYearOut : DF :=
  { cols := ["title", "genres", "episodeduration(in minutes)", "rating", "years", "year_inicio", "generoprincipal"],
    rows := [[Value.str "A", Value.str "Drama,Crime", Value.num 45, Value.num (17/2), Value.str "2010", Value.num 2010, Value.str "Drama"],
             [Value.str "B", Value.str "Comedy", Value.num 22, Value.num 7, Value.str "2012", Value.num 2012, Value.str "Comedy"]] }

/-! ## Shared lemmas -/

theorem replaceNaN_cols (df : DF) : (replaceNaN df).cols = df.cols := rfl

theorem normCols_cols (df : DF) : (normCols df).cols = df.cols.map normName := rfl

theorem dropnaAll_cols (df : DF) : (dropnaAll df).cols = df.cols := rfl

theorem dropnaSubset_eq_some {s : List String} {df d : DF}
    (h : dropnaSubset s df = some d) :
    d.cols = df.cols ∧ d.rows = df.rows.filter (rowOkOn df.cols s) ∧
      ∀ c ∈ s, c ∈ df.cols := by
  unfold dropnaSubset at h
  split at h
  · rename_i hall
    cases h
    refine ⟨rfl, rfl, ?_⟩
    intro c hc
    have hc2 := List.all_eq_true.mp hall c hc
    simpa using hc2
  · cases h

theorem setNumericCol_eq_some {c : String} {df d : DF}
    (h : setNumericCol c df = some d) :
    ∃ i, uniqueIdx df c = some i ∧ d.cols = df.cols ∧
      d.rows = df.rows.map fun r => r.set i (toNumericVal (cell r i)) := by
  unfold setNumericCol at h
  cases hidx : uniqueIdx df c with
  | none => rw [hidx] at h; cases h
  | some i => rw [hidx] at h; cases h; exact ⟨i, rfl, rfl, rfl⟩

theorem cleaning_eq_some {df out : DF} (h : cleaning df = some out) :
    ∃ d2 d3 d4,
      dropnaSubset requiredCols (renameTitle (replaceNaN (normCols df))) = some d2 ∧
      setNumericCol "episodeduration(in minutes)" d2 = some d3 ∧
      setNumericCol "rating" d3 = some d4 ∧
      out = dropnaAll d4 := by
  unfold cleaning at h
  simp only [bind, Option.bind_eq_some, pure, Option.some.injEq] at h
  obtain ⟨d2, h2, d3, h3, d4, h4, hout⟩ := h
  exact ⟨d2, d3, d4, h2, h3, h4, hout.symm⟩

/-! ## C1: the cleaned frame has no nulls in the required columns -/

/-- C1: for every input frame, a successful cleaning yields a frame
that still carries the four required columns and has no null in any
column position; and the concrete row whose rating is the non-numeric
string `"N/A"` is dropped entirely after numeric coercion. -/
theorem cleaning_no_nulls :
    (∀ df out, cleaning df = some out →
      (∀ c ∈ requiredCols, c ∈ out.cols) ∧
      ∀ r ∈ out.rows, ∀ i < out.cols.length, cell r i ≠ Value.na) ∧
    cleaning dfNAscenario = some dfNAscenarioOut := by
  constructor
  · intro df out h
    obtain ⟨d2, d3, d4, h2, h3, h4, hout⟩ := cleaning_eq_some h
    obtain ⟨hc2, _, hreq⟩ := dropnaSubset_eq_some h2
    obtain ⟨i3, _, hc3, _⟩ := setNumericCol_eq_some h3
    obtain ⟨i4, _, hc4, _⟩ := setNumericCol_eq_some h4
    have hcols : out.cols = d4.cols := by rw [hout]; rfl
    constructor
    · intro c hc
      rw [hcols, hc4, hc3, hc2]
      exact hreq c hc
    · intro r hr i hi
      rw [hout] at hr
      unfold dropnaAll at hr
      simp only [List.mem_filter] at hr
      have hall := List.all_eq_true.mp hr.2 i
      rw [hcols] at hi
      have hcell := hall (List.mem_range.mpr hi)
      simpa using hcell
  · with_unfolding_all decide

/-- Witness for `cleaning_no_nulls`: instantiated on the `"N/A"`
scenario. -/
theorem cleaning_no_nulls_witness :
    ("rating" ∈ dfNAscenarioOut.cols) ∧
      cell [Value.str "A", Value.str "Drama,Crime", Value.num 45, Value.num (17/2), Value.str "2010"] 3
        ≠ Value.na := by
  have h := cleaning_no_nulls.1 dfNAscenario dfNAscenarioOut cleaning_no_nulls.2
  refine ⟨h.1 "rating" (by decide), h.2 _ (by with_unfolding_all decide) 3 (by decide)⟩

/-! ## C2: rating-by-genre aggregation -/

/-- C2: the two-record scenario survives cleaning unchanged and the
rating-by-genre aggregation yields exactly Drama 8.5 then Comedy 7.0;
in general the aggregation output is sorted by non-increasing mean. -/
theorem rating_vs_genre_scenario :
    cleaning dfTwoShows = some dfTwoShows ∧
    promedioGenero dfTwoShows =
      some [(Value.str "Drama", 17/2), (Value.str "Comedy", 7)] ∧
    (∀ df pairs, promedioGenero df = some pairs →
      pairs.Pairwise fun p q => q.2 ≤ p.2) := by
  refine ⟨by with_unfolding_all decide, by with_unfolding_all decide, ?_⟩
  intro df pairs h
  unfold promedioGenero at h
  simp only [bind, Option.bind_eq_some, pure, Option.some.injEq] at h
  obtain ⟨gs, hgs, rs, hrs, hp⟩ := h
  subst hp
  have : IsTotal (Value × Rat) (fun p q : Value × Rat => q.2 ≤ p.2) :=
    ⟨fun a b => le_total b.2 a.2⟩
  have : IsTrans (Value × Rat) (fun p q : Value × Rat => q.2 ≤ p.2) :=
    ⟨fun a b c h1 h2 => le_trans h2 h1⟩
  exact List.sorted_insertionSort _ _

/-- Witness for `rating_vs_genre_scenario`: its general sortedness part
applied to the scenario output. -/
theorem rating_vs_genre_scenario_witness :
    ([(Value.str "Drama", (17:Rat)/2), (Value.str "Comedy", 7)].Pairwise
      fun p q => q.2 ≤ p.2) :=
  rating_vs_genre_scenario.2.2 dfTwoShows _ rating_vs_genre_scenario.2.1

/-! ## C5: year extraction -/

/-- C5: year extraction takes the first 4-digit run of the free text
and yields null when there is none. -/
theorem extract_year_spec :
    extract_year "2001-2015" = some 2001 ∧ extract_year "unknown" = none ∧
      extract_year "Between 1999 and 2003" = some 1999 := by
  exact ⟨by decide, by decide, by decide⟩

/-! ## C8: missing title column -/

/-- C8 (amended): when no (normalised) column name contains the
substring `"title"`, the rename step leaves the columns untouched and
cleaning then raises at the required-column null-drop — it returns no
frame at all, rather than an empty frame. -/
theorem cleaning_missing_title :
    ∀ df : DF, (∀ c ∈ df.cols, containsTitle (normName c) = false) →
      cleaning df = none := by
  intro df h
  have hmem : "title" ∉ (replaceNaN (normCols df)).cols := by
    rw [replaceNaN_cols, normCols_cols]
    intro hmem
    simp only [List.mem_map] at hmem
    obtain ⟨c, hc, hn⟩ := hmem
    have hct := h c hc
    rw [hn] at hct
    exact absurd hct (by decide)
  have hfind : (replaceNaN (normCols df)).cols.find? containsTitle = none := by
    rw [replaceNaN_cols, normCols_cols]
    apply List.find?_eq_none.mpr
    intro x hx
    simp only [List.mem_map] at hx
    obtain ⟨c, hc, hn⟩ := hx
    rw [← hn]
    simp [h c hc]
  have hre : renameTitle (replaceNaN (normCols df)) = replaceNaN (normCols df) := by
    unfold renameTitle
    rw [if_neg hmem, hfind]
  have hdrop : dropnaSubset requiredCols (replaceNaN (normCols df)) = none := by
    unfold dropnaSubset
    rw [if_neg]
    intro hall
    have hcon := List.all_eq_true.mp hall "title" (by decide)
    rw [List.contains_eq_any_beq] at hcon
    simp only [List.any_eq_true, beq_iff_eq] at hcon
    obtain ⟨x, hx, hxeq⟩ := hcon
    exact hmem (hxeq ▸ hx)
  unfold cleaning
  simp only [hre, hdrop, bind, Option.bind]

/-- Counterexample to C8 as stated: on a frame with no title-like
column, cleaning raises (yields no frame), and in particular does not
return the empty dataset the claim promises. -/
theorem cleaning_missing_title_counterexample :
    cleaning dfNoTitle = none ∧
      cleaning dfNoTitle ≠
        some { cols := ["name", "genres", "episodeduration(in minutes)", "rating", "years"],
               rows := [] } := by
  exact ⟨by with_unfolding_all decide, by with_unfolding_all decide⟩

/-- Witness for `cleaning_missing_title`. -/
theorem cleaning_missing_title_witness : cleaning dfNoTitle = none :=
  cleaning_missing_title dfNoTitle (by decide)

/-! ## Shared lemmas: columns, rows and `setCol` -/

theorem getColValsU_length {df : DF} {c : String} {vs : List Value}
    (h : getColValsU df c = some vs) : vs.length = df.rows.length := by
  unfold getColValsU at h
  cases hidx : uniqueIdx df c with
  | none => rw [hidx] at h; cases h
  | some i => rw [hidx] at h; cases h; simp

theorem uniqueIdx_lt_length {df : DF} {c : String} {i : Nat}
    (h : uniqueIdx df c = some i) : i < df.cols.length ∧ df.cols.getD i "" = c := by
  unfold uniqueIdx at h
  split at h
  · have h2 := List.findIdx?_eq_some_iff_findIdx_eq.mp h
    obtain ⟨hlt, hfi⟩ := h2
    refine ⟨hlt, ?_⟩
    have hw : List.findIdx (fun x => decide (x = c)) df.cols < df.cols.length := by
      rw [hfi]; exact hlt
    have hp := List.findIdx_getElem (w := hw)
    simp only [hfi] at hp
    rw [List.getD_eq_getElem?_getD, List.getElem?_eq_getElem hlt]
    simpa using hp
  · cases h

theorem mem_zipWith_elim {α β γ : Type} {f : α → β → γ} :
    ∀ {as : List α} {bs : List β} {x : γ},
      x ∈ List.zipWith f as bs → ∃ a ∈ as, ∃ b ∈ bs, x = f a b := by
  intro as
  induction as with
  | nil => intro bs x hx; cases hx
  | cons a as ih =>
    intro bs x hx
    cases bs with
    | nil => cases hx
    | cons b bs =>
      simp only [List.zipWith_cons_cons, List.mem_cons] at hx
      rcases hx with h | h
      · exact ⟨a, List.mem_cons_self _ _, b, List.mem_cons_self _ _, h⟩
      · obtain ⟨a2, ha2, b2, hb2, hx⟩ := ih h
        exact ⟨a2, List.mem_cons_of_mem _ ha2, b2, List.mem_cons_of_mem _ hb2, hx⟩

theorem setCol_WF {c : String} {vals : List Value} {df : DF}
    (hwf : DF.WF df) (hlen : vals.length = df.rows.length) :
    DF.WF (setCol c vals df) := by
  unfold setCol
  cases hf : df.cols.findIdx? (fun x => x = c) with
  | some j =>
    intro r hr
    obtain ⟨a, ha, v, hv, hx⟩ := mem_zipWith_elim hr
    simp only [hx, List.length_set]
    exact hwf a ha
  | none =>
    intro r hr
    obtain ⟨a, ha, v, hv, hx⟩ := mem_zipWith_elim hr
    simp only [hx, List.length_append, List.length_cons, List.length_nil]
    rw [hwf a ha]

theorem setCol_rows_length {c : String} {vals : List Value} {df : DF}
    (hlen : vals.length = df.rows.length) :
    (setCol c vals df).rows.length = df.rows.length := by
  unfold setCol
  cases hf : df.cols.findIdx? (fun x => x = c) with
  | some j => simp [List.length_zipWith, hlen]
  | none => simp [List.length_zipWith, hlen]

theorem countOcc_append_one {c c2 : String} {l : List String} (hne : c2 ≠ c) :
    countOcc c2 (l ++ [c]) = countOcc c2 l := by
  unfold countOcc
  rw [List.filter_append]
  have hnil : List.filter (fun x => decide (x = c2)) [c] = [] := by
    simp [Ne.symm hne]
  rw [hnil, List.append_nil]

theorem uniqueIdx_setCol_ne {c c2 : String} {vals : List Value} {df : DF} (hne : c2 ≠ c) :
    uniqueIdx (setCol c vals df) c2 = uniqueIdx df c2 := by
  unfold setCol
  cases hf : df.cols.findIdx? (fun x => x = c) with
  | some j => rfl
  | none =>
    show uniqueIdx { cols := df.cols ++ [c], rows := _ } c2 = uniqueIdx df c2
    unfold uniqueIdx
    have hcount : countOcc c2 (df.cols ++ [c]) = countOcc c2 df.cols := countOcc_append_one hne
    have hfind : (df.cols ++ [c]).findIdx? (fun x => x = c2) = df.cols.findIdx? (fun x => x = c2) := by
      rw [List.findIdx?_append]
      have hnone : List.findIdx? (fun x => decide (x = c2)) [c] = none := by
        simp [Ne.symm hne]
      rw [hnone]
      simp
    simp only [hcount, hfind]

theorem cell_set_ne {r : List Value} {i j : Nat} {v : Value} (hne : j ≠ i) :
    cell (r.set j v) i = cell r i := by
  unfold cell
  rw [List.getD_eq_getElem?_getD, List.getD_eq_getElem?_getD, List.getElem?_set_ne hne]

theorem cell_append_lt {r : List Value} {i : Nat} {v : Value} (hlt : i < r.length) :
    cell (r ++ [v]) i = cell r i := by
  unfold cell
  rw [List.getD_eq_getElem?_getD, List.getD_eq_getElem?_getD, List.getElem?_append_left hlt]

theorem map_cell_zipWith_set {i j : Nat} (hne : j ≠ i) :
    ∀ (rows : List (List Value)) (vals : List Value),
      ((List.zipWith (fun r v => r.set j v) rows vals).map fun r => cell r i) =
        (rows.take vals.length).map fun r => cell r i := by
  intro rows
  induction rows with
  | nil => intro vals; simp
  | cons r rs ih =>
    intro vals
    cases vals with
    | nil => simp
    | cons v vs =>
      simp only [List.zipWith_cons_cons, List.map_cons, List.length_cons, List.take_succ_cons]
      rw [cell_set_ne hne, ih]

theorem map_cell_zipWith_append {i : Nat} :
    ∀ (rows : List (List Value)) (vals : List Value), (∀ r ∈ rows, i < r.length) →
      ((List.zipWith (fun r v => r ++ [v]) rows vals).map fun r => cell r i) =
        (rows.take vals.length).map fun r => cell r i := by
  intro rows
  induction rows with
  | nil => intro vals _; simp
  | cons r rs ih =>
    intro vals hlt
    cases vals with
    | nil => simp
    | cons v vs =>
      simp only [List.zipWith_cons_cons, List.map_cons, List.length_cons, List.take_succ_cons]
      rw [cell_append_lt (hlt r (List.mem_cons_self _ _)), ih]
      intro r2 hr2
      exact hlt r2 (List.mem_cons_of_mem _ hr2)

theorem getColValsU_setCol_ne {c c2 : String} {vals : List Value} {df : DF}
    (hwf : DF.WF df) (hlen : vals.length = df.rows.length) (hne : c2 ≠ c) :
    getColValsU (setCol c vals df) c2 = getColValsU df c2 := by
  unfold getColValsU
  rw [uniqueIdx_setCol_ne hne]
  cases hidx : uniqueIdx df c2 with
  | none => rfl
  | some i =>
    simp only [Option.map_some', Option.some.injEq]
    unfold setCol
    cases hf : df.cols.findIdx? (fun x => x = c) with
    | some j =>
      show (List.zipWith (fun r v => r.set j v) df.rows vals).map (fun r => cell r i) = _
      have hji : j ≠ i := by
        intro hji
        subst hji
        obtain ⟨hlt2, hget2⟩ := uniqueIdx_lt_length hidx
        have h3 := List.findIdx?_eq_some_iff_findIdx_eq.mp hf
        obtain ⟨hlt3, hfi3⟩ := h3
        have hw : List.findIdx (fun x => decide (x = c)) df.cols < df.cols.length := by
          rw [hfi3]; exact hlt3
        have hp := List.findIdx_getElem (w := hw)
        simp only [hfi3] at hp
        have hc : df.cols.getD j "" = c := by
          rw [List.getD_eq_getElem?_getD, List.getElem?_eq_getElem hlt3]
          simpa using hp
        rw [hget2] at hc
        exact hne hc
      rw [map_cell_zipWith_set hji, hlen, List.take_length]
    | none =>
      show (List.zipWith (fun r v => r ++ [v]) df.rows vals).map (fun r => cell r i) = _
      obtain ⟨hlt2, _⟩ := uniqueIdx_lt_length hidx
      rw [map_cell_zipWith_append, hlen, List.take_length]
      intro r hr
      rw [hwf r hr]
      exact hlt2

theorem mapM_some_length {f : Value → Option Value} :
    ∀ {l l2 : List Value}, l.mapM f = some l2 → l2.length = l.length := by
  intro l
  induction l with
  | nil => intro l2 h; simp only [List.mapM_nil, pure, Option.some.injEq] at h; rw [← h]
  | cons a as ih =>
    intro l2 h
    rw [List.mapM_cons] at h
    simp only [bind, Option.bind_eq_some, pure, Option.some.injEq] at h
    obtain ⟨b, hb, bs, hbs, hl2⟩ := h
    rw [← hl2, List.length_cons, List.length_cons, ih hbs]

theorem preserve_of_setCol {df : DF} {newc : String} {vals : List Value}
    (hwf : DF.WF df) (hlen : vals.length = df.rows.length)
    (hnew : newc = "generoprincipal" ∨ newc = "year_inicio") :
    (setCol newc vals df).rows.length = df.rows.length ∧
    ∀ c ∈ ["title", "genres", "episodeduration(in minutes)", "rating", "years"],
      getColValsU (setCol newc vals df) c = getColValsU df c := by
  refine ⟨setCol_rows_length hlen, ?_⟩
  intro c hc
  apply getColValsU_setCol_ne hwf hlen
  rcases hnew with h | h <;> subst h <;> fin_cases hc <;> decide

theorem filterRows_WF {df : DF} {p : List Value → Bool} (hwf : DF.WF df) :
    DF.WF { cols := df.cols, rows := df.rows.filter p } := by
  intro r hr
  exact hwf r (List.mem_filter.mp hr).1

/-! ## Shared lemmas: normalisation is idempotent -/

theorem charOfNatToNat {n : Nat} (h : n < 55296) : (Char.ofNat n).toNat = n := by
  unfold Char.ofNat
  rw [dif_pos (Or.inl h)]
  unfold Char.ofNatAux Char.toNat
  simp [UInt32.toNat, BitVec.toNat_ofNatLt]

theorem lowerChar_toNat {c : Char} (h1 : 65 ≤ c.toNat) (h2 : c.toNat ≤ 90) :
    (lowerChar c).toNat = c.toNat + 32 := by
  unfold lowerChar
  rw [if_pos ⟨h1, h2⟩]
  exact charOfNatToNat (by omega)

theorem lowerChar_idem (c : Char) : lowerChar (lowerChar c) = lowerChar c := by
  by_cases h : 65 ≤ c.toNat ∧ c.toNat ≤ 90
  · have ht := lowerChar_toNat h.1 h.2
    show (if 65 ≤ (lowerChar c).toNat ∧ (lowerChar c).toNat ≤ 90 then
        Char.ofNat ((lowerChar c).toNat + 32) else lowerChar c) = lowerChar c
    rw [if_neg (by rw [ht]; omega)]
  · show (if 65 ≤ (lowerChar c).toNat ∧ (lowerChar c).toNat ≤ 90 then
        Char.ofNat ((lowerChar c).toNat + 32) else lowerChar c) = lowerChar c
    have hc : lowerChar c = c := by unfold lowerChar; rw [if_neg h]
    rw [hc, if_neg h]

theorem isSpaceB_eq_false_of_ge {c : Char} (h : 65 ≤ c.toNat) : isSpaceB c = false := by
  unfold isSpaceB
  by_contra hb
  simp only [Bool.or_eq_true, decide_eq_true_eq, Bool.not_eq_false] at hb
  rcases hb with ((((h1 | h1) | h1) | h1) | h1) | h1 <;> subst h1 <;> revert h <;> decide

theorem isSpaceB_lowerChar (c : Char) : isSpaceB (lowerChar c) = isSpaceB c := by
  by_cases h : 65 ≤ c.toNat ∧ c.toNat ≤ 90
  · rw [isSpaceB_eq_false_of_ge h.1, isSpaceB_eq_false_of_ge]
    rw [lowerChar_toNat h.1 h.2]
    omega
  · have hc : lowerChar c = c := by unfold lowerChar; rw [if_neg h]
    rw [hc]

theorem dropWhile_dropWhile {α : Type} (p : α → Bool) (l : List α) :
    (l.dropWhile p).dropWhile p = l.dropWhile p := by
  induction l with
  | nil => rfl
  | cons a l ih =>
    rw [List.dropWhile_cons]
    by_cases hp : p a = true
    · rw [if_pos hp]; exact ih
    · rw [if_neg hp, List.dropWhile_cons, if_neg hp]

theorem dropWhile_eq_self_of_cons {α : Type} {p : α → Bool} {a : α} {l : List α}
    (h : (a :: l).dropWhile p = a :: l) : p a = false := by
  by_contra hp
  simp only [Bool.not_eq_false] at hp
  rw [List.dropWhile_cons, if_pos hp] at h
  have hlen := congrArg List.length h
  have hle := (List.dropWhile_sublist (l := l) (p := p)).length_le
  simp only [List.length_cons] at hlen
  omega

theorem dropWhile_map_eq_self {α : Type} {p : α → Bool} {f : α → α}
    (hf : ∀ a, p (f a) = p a) {l : List α} (h : l.dropWhile p = l) :
    (l.map f).dropWhile p = l.map f := by
  cases l with
  | nil => rfl
  | cons a l =>
    have hp := dropWhile_eq_self_of_cons h
    rw [List.map_cons, List.dropWhile_cons, hf, if_neg (by rw [hp]; exact Bool.false_ne_true)]

theorem dropWhile_eq_self_of_front {α : Type} {p : α → Bool} {u v : List α}
    (hpre : v <+: u) (h : u.dropWhile p = u) : v.dropWhile p = v := by
  cases v with
  | nil => rfl
  | cons a w =>
    obtain ⟨t, ht⟩ := hpre
    rw [← ht] at h
    have hp := dropWhile_eq_self_of_cons (l := w ++ t) (by
      have h2 : ((a :: w) ++ t) = a :: (w ++ t) := rfl
      rw [h2] at h
      exact h)
    rw [List.dropWhile_cons, if_neg (by rw [hp]; exact Bool.false_ne_true)]

theorem stripChars_no_lead (l : List Char) :
    (stripChars l).dropWhile isSpaceB = stripChars l := by
  unfold stripChars
  apply dropWhile_eq_self_of_front (u := l.dropWhile isSpaceB)
  · have hsuf := List.dropWhile_suffix (l := (l.dropWhile isSpaceB).reverse) (p := isSpaceB)
    have hrev := hsuf.reverse
    simpa using hrev
  · exact dropWhile_dropWhile _ _

theorem stripChars_no_trail (l : List Char) :
    (stripChars l).reverse.dropWhile isSpaceB = (stripChars l).reverse := by
  unfold stripChars
  rw [List.reverse_reverse]
  exact dropWhile_dropWhile _ _

theorem stripChars_eq_self {l : List Char}
    (h1 : l.dropWhile isSpaceB = l) (h2 : l.reverse.dropWhile isSpaceB = l.reverse) :
    stripChars l = l := by
  unfold stripChars
  rw [h1, h2, List.reverse_reverse]

theorem normName_idem (s : String) : normName (normName s) = normName s := by
  unfold normName
  have hdata : (⟨(stripChars s.data).map lowerChar⟩ : String).data =
      (stripChars s.data).map lowerChar := rfl
  rw [hdata]
  have hstrip : stripChars ((stripChars s.data).map lowerChar) =
      (stripChars s.data).map lowerChar := by
    apply stripChars_eq_self
    · exact dropWhile_map_eq_self isSpaceB_lowerChar (stripChars_no_lead s.data)
    · rw [← List.map_reverse]
      exact dropWhile_map_eq_self isSpaceB_lowerChar (stripChars_no_trail s.data)
  rw [hstrip, List.map_map]
  have hmap : ((stripChars s.data).map (lowerChar ∘ lowerChar)) =
      (stripChars s.data).map lowerChar := by
    apply List.map_congr_left
    intro a ha
    exact lowerChar_idem a
  rw [hmap]

/-! ## Shared lemmas: the state a successful cleaning leaves behind -/

theorem map_eq_self_of {α : Type} {f : α → α} {l : List α} (h : ∀ x ∈ l, f x = x) :
    l.map f = l := by
  induction l with
  | nil => rfl
  | cons a l ih =>
    rw [List.map_cons, h a (List.mem_cons_self _ _), ih fun x hx => h x (List.mem_cons_of_mem _ hx)]

theorem set_cell_self {r : List Value} {i : Nat} (h : cell r i ≠ Value.na) :
    r.set i (cell r i) = r := by
  have hlt : i < r.length := by
    by_contra hge
    unfold cell at h
    rw [List.getD_eq_getElem?_getD, List.getElem?_eq_none (by omega)] at h
    exact h rfl
  unfold cell
  rw [List.getD_eq_getElem?_getD, List.getElem?_eq_getElem hlt]
  show r.set i r[i] = r
  apply List.ext_getElem?
  intro j
  by_cases hij : i = j
  · subst hij
    rw [List.getElem?_set_self hlt]
    simp [List.getElem?_eq_getElem hlt]
  · rw [List.getElem?_set_ne hij]

theorem toNumericVal_num_or_na (v : Value) :
    (∃ q, toNumericVal v = Value.num q) ∨ toNumericVal v = Value.na := by
  cases v with
  | na => exact Or.inr rfl
  | num q => exact Or.inl ⟨q, rfl⟩
  | str s =>
    simp only [toNumericVal]
    cases hps : parseNum s with
    | none => exact Or.inr rfl
    | some q => exact Or.inl ⟨q, rfl⟩

theorem renameTitle_rows (df : DF) : (renameTitle df).rows = df.rows := by
  unfold renameTitle
  split
  · rfl
  · split <;> rfl

theorem uniqueIdx_cols_congr {d e : DF} (h : d.cols = e.cols) (c : String) :
    uniqueIdx d c = uniqueIdx e c := by
  unfold uniqueIdx
  rw [h]

theorem cleaning_some_no_na {df out : DF} (h : cleaning df = some out) :
    (∀ c ∈ requiredCols, c ∈ out.cols) ∧
    ∀ r ∈ out.rows, ∀ i < out.cols.length, cell r i ≠ Value.na := by
  obtain ⟨d2, d3, d4, h2, h3, h4, hout⟩ := cleaning_eq_some h
  obtain ⟨hc2, _, hreq⟩ := dropnaSubset_eq_some h2
  obtain ⟨i3, _, hc3, _⟩ := setNumericCol_eq_some h3
  obtain ⟨i4, _, hc4, _⟩ := setNumericCol_eq_some h4
  have hcols : out.cols = d4.cols := by rw [hout]; rfl
  constructor
  · intro c hc
    rw [hcols, hc4, hc3, hc2]
    exact hreq c hc
  · intro r hr i hi
    rw [hout] at hr
    unfold dropnaAll at hr
    simp only [List.mem_filter] at hr
    have hall := List.all_eq_true.mp hr.2 i
    rw [hcols] at hi
    have hcell := hall (List.mem_range.mpr hi)
    simpa using hcell

theorem cleaning_some_cols_norm {df out : DF} (h : cleaning df = some out) :
    out.cols.map normName = out.cols := by
  obtain ⟨d2, d3, d4, h2, h3, h4, hout⟩ := cleaning_eq_some h
  obtain ⟨hc2, _, _⟩ := dropnaSubset_eq_some h2
  obtain ⟨i3, _, hc3, _⟩ := setNumericCol_eq_some h3
  obtain ⟨i4, _, hc4, _⟩ := setNumericCol_eq_some h4
  have hcols : out.cols = (renameTitle (replaceNaN (normCols df))).cols := by
    rw [hout, dropnaAll_cols, hc4, hc3, hc2]
  rw [hcols]
  unfold renameTitle
  split
  · rw [replaceNaN_cols, normCols_cols, List.map_map]
    apply List.map_congr_left
    intro a _
    exact normName_idem a
  · split
    · rename_i c hfind
      show ((df.cols.map normName).map fun x => if x = c then "title" else x).map normName =
        (df.cols.map normName).map fun x => if x = c then "title" else x
      simp only [List.map_map]
      apply List.map_congr_left
      intro a _
      show normName (if normName a = c then "title" else normName a) =
        (if normName a = c then "title" else normName a)
      split
      · decide
      · exact normName_idem a
    · rw [replaceNaN_cols, normCols_cols, List.map_map]
      apply List.map_congr_left
      intro a _
      exact normName_idem a

theorem replaceVal_ne_NaN (v : Value) : replaceVal v ≠ Value.str "NaN" := by
  unfold replaceVal
  split
  · exact fun hcon => Value.noConfusion hcon
  · rename_i hv
    exact hv

theorem toNumericVal_ne_str (v : Value) (s : String) : toNumericVal v ≠ Value.str s := by
  rcases toNumericVal_num_or_na v with ⟨q, hq⟩ | hq <;> rw [hq] <;>
    exact fun hcon => Value.noConfusion hcon

theorem cleaning_some_no_NaN {df out : DF} (h : cleaning df = some out) :
    ∀ r ∈ out.rows, ∀ v ∈ r, v ≠ Value.str "NaN" := by
  obtain ⟨d2, d3, d4, h2, h3, h4, hout⟩ := cleaning_eq_some h
  obtain ⟨_, hr2, _⟩ := dropnaSubset_eq_some h2
  obtain ⟨i3, _, _, hr3⟩ := setNumericCol_eq_some h3
  obtain ⟨i4, _, _, hr4⟩ := setNumericCol_eq_some h4
  have hbase : ∀ r ∈ (renameTitle (replaceNaN (normCols df))).rows, ∀ v ∈ r,
      v ≠ Value.str "NaN" := by
    intro r hr v hv
    rw [renameTitle_rows] at hr
    obtain ⟨r0, _, hr0⟩ := List.mem_map.mp hr
    rw [← hr0] at hv
    obtain ⟨v0, _, hv0⟩ := List.mem_map.mp hv
    rw [← hv0]
    exact replaceVal_ne_NaN v0
  intro r hr v hv
  rw [hout] at hr
  have hr4m : r ∈ d4.rows := (List.mem_filter.mp hr).1
  rw [hr4] at hr4m
  obtain ⟨r3, hr3m, hr34⟩ := List.mem_map.mp hr4m
  rw [hr3] at hr3m
  obtain ⟨r2, hr2m, hr23⟩ := List.mem_map.mp hr3m
  rw [hr2] at hr2m
  have hr2mem := (List.mem_filter.mp hr2m).1
  rw [← hr34] at hv
  rcases List.mem_or_eq_of_mem_set hv with hv3 | hveq
  · rw [← hr23] at hv3
    rcases List.mem_or_eq_of_mem_set hv3 with hv2 | hveq
    · exact hbase r2 hr2mem v hv2
    · rw [hveq]; exact toNumericVal_ne_str _ _
  · rw [hveq]; exact toNumericVal_ne_str _ _

theorem cell_set_same (r : List Value) (i : Nat) (v : Value) :
    cell (r.set i v) i = v ∨ cell (r.set i v) i = Value.na := by
  by_cases hlt : i < r.length
  · left
    unfold cell
    rw [List.getD_eq_getElem?_getD, List.getElem?_set_self hlt]
    rfl
  · right
    rw [List.set_eq_of_length_le (by omega)]
    unfold cell
    rw [List.getD_eq_getElem?_getD, List.getElem?_eq_none (by omega)]
    rfl

theorem cleaning_some_numeric {df out : DF} (h : cleaning df = some out) :
    ∀ c ∈ (["episodeduration(in minutes)", "rating"] : List String),
      ∃ i, uniqueIdx out c = some i ∧ ∀ r ∈ out.rows, ∃ q, cell r i = Value.num q := by
  obtain ⟨d2, d3, d4, h2, h3, h4, hout⟩ := cleaning_eq_some h
  obtain ⟨hc2, hr2, hreq⟩ := dropnaSubset_eq_some h2
  obtain ⟨i3, hi3, hc3, hr3⟩ := setNumericCol_eq_some h3
  obtain ⟨i4, hi4, hc4, hr4⟩ := setNumericCol_eq_some h4
  have hcols : out.cols = d4.cols := by rw [hout]; rfl
  have hq3 := uniqueIdx_lt_length hi3
  have hq4 := uniqueIdx_lt_length hi4
  have hne43 : i4 ≠ i3 := by
    intro he
    subst he
    rw [hc3] at hq4
    rw [hq3.2] at hq4
    exact absurd hq4.2 (by decide)
  have hna := (cleaning_some_no_na h).2
  have hmem : ∀ r ∈ out.rows, ∃ r3 ∈ d3.rows, r = r3.set i4 (toNumericVal (cell r3 i4)) := by
    intro r hr
    rw [hout] at hr
    have hr4m : r ∈ d4.rows := (List.mem_filter.mp hr).1
    rw [hr4] at hr4m
    obtain ⟨r3, hr3m, hr34⟩ := List.mem_map.mp hr4m
    exact ⟨r3, hr3m, hr34.symm⟩
  intro c hc
  rcases List.mem_pair.mp hc with hce | hce
  · refine ⟨i3, ?_, ?_⟩
    · rw [uniqueIdx_cols_congr (e := d2) (by rw [hcols, hc4, hc3]) c, hce]
      exact hi3
    · intro r hr
      obtain ⟨r3, hr3m, hr34⟩ := hmem r hr
      have hcell3 : cell r i3 = cell r3 i3 := by
        rw [hr34]
        exact cell_set_ne hne43
      have hi3lt : i3 < out.cols.length := by
        rw [hcols, hc4, hc3]
        exact hq3.1
      have hnotna := hna r hr i3 hi3lt
      rw [hr3] at hr3m
      obtain ⟨r2, hr2m, hr23⟩ := List.mem_map.mp hr3m
      rw [← hr23] at hcell3
      rcases cell_set_same r2 i3 (toNumericVal (cell r2 i3)) with hs | hs
      · rw [hs] at hcell3
        rcases toNumericVal_num_or_na (cell r2 i3) with ⟨q, hq⟩ | hq
        · exact ⟨q, by rw [hcell3, hq]⟩
        · exact absurd (by rw [hcell3, hq]) hnotna
      · rw [hs] at hcell3
        exact absurd hcell3 hnotna
  · refine ⟨i4, ?_, ?_⟩
    · rw [uniqueIdx_cols_congr (e := d3) (by rw [hcols, hc4]) c, hce]
      exact hi4
    · intro r hr
      obtain ⟨r3, hr3m, hr34⟩ := hmem r hr
      have hi4lt : i4 < out.cols.length := by
        rw [hcols, hc4]
        exact hq4.1
      have hnotna := hna r hr i4 hi4lt
      rcases cell_set_same r3 i4 (toNumericVal (cell r3 i4)) with hs | hs
      · rw [← hr34] at hs
        rcases toNumericVal_num_or_na (cell r3 i4) with ⟨q, hq⟩ | hq
        · exact ⟨q, by rw [hs, hq]⟩
        · exact absurd (by rw [hs, hq]) hnotna
      · rw [← hr34] at hs
        exact absurd hs hnotna

theorem cleaning_of_cleaned {d : DF}
    (h1 : d.cols.map normName = d.cols)
    (h2 : "title" ∈ d.cols)
    (h3 : ∀ c ∈ requiredCols, c ∈ d.cols)
    (h4 : ∀ r ∈ d.rows, ∀ v ∈ r, v ≠ Value.str "NaN")
    (h5 : ∀ r ∈ d.rows, ∀ i < d.cols.length, cell r i ≠ Value.na)
    (h6 : ∀ c ∈ (["episodeduration(in minutes)", "rating"] : List String),
            ∃ i, uniqueIdx d c = some i ∧ ∀ r ∈ d.rows, ∃ q, cell r i = Value.num q) :
    cleaning d = some d := by
  have hnorm : normCols d = d := by
    cases d with
    | mk cols rows => simp only [normCols] at h1 ⊢; rw [h1]
  have hrep : replaceNaN d = d := by
    cases d with
    | mk cols rows =>
      simp only [replaceNaN]
      congr 1
      apply map_eq_self_of
      intro r hr
      apply map_eq_self_of
      intro v hv
      unfold replaceVal
      rw [if_neg (h4 r hr v hv)]
  have hren : renameTitle d = d := by
    unfold renameTitle
    rw [if_pos h2]
  have hdrop : dropnaSubset requiredCols d = some d := by
    unfold dropnaSubset
    rw [if_pos]
    · congr 1
      cases d with
      | mk cols rows =>
        simp only
        congr 1
        apply List.filter_eq_self.mpr
        intro r hr
        unfold rowOkOn
        apply List.all_eq_true.mpr
        intro i hi
        rw [List.mem_range] at hi
        split
        · simpa using h5 r hr i hi
        · rfl
    · apply List.all_eq_true.mpr
      intro c hc
      simpa using h3 c hc
  have hsetnum : ∀ c ∈ (["episodeduration(in minutes)", "rating"] : List String),
      setNumericCol c d = some d := by
    intro c hc
    obtain ⟨i, hidx, hnum⟩ := h6 c hc
    unfold setNumericCol
    rw [hidx]
    simp only [Option.map_some', Option.some.injEq]
    cases d with
    | mk cols rows =>
      simp only
      congr 1
      apply map_eq_self_of
      intro r hr
      obtain ⟨q, hq⟩ := hnum r hr
      have hnotna : cell r i ≠ Value.na := by
        rw [hq]; exact fun hcon => Value.noConfusion hcon
      have hto : toNumericVal (cell r i) = cell r i := by rw [hq]; rfl
      rw [hto]
      exact set_cell_self hnotna
  have hall : dropnaAll d = d := by
    unfold dropnaAll
    cases d with
    | mk cols rows =>
      simp only
      congr 1
      apply List.filter_eq_self.mpr
      intro r hr
      apply List.all_eq_true.mpr
      intro i hi
      rw [List.mem_range] at hi
      simpa using h5 r hr i hi
  unfold cleaning
  rw [hnorm, hrep, hren]
  simp [bind, hdrop, hsetnum "episodeduration(in minutes)" (by decide),
    hsetnum "rating" (by decide), pure, hall]

/-! ## Shared lemmas: heap model -/

theorem getElem_concat_len (l : List DF) (d : DF) : (l ++ [d])[l.length]? = some d := by
  rw [List.getElem?_append_right (Nat.le_refl _)]
  simp

/-- Coherence of the two embeddings of `cleaning`: the frame the heap
procedure returns is exactly the frame the value-level `cleaning`
computes on the argument object. -/
theorem cleaningProc_returns (h0 : List DF) (r : Nat) :
    ((cleaningProc h0 r).2).map (heapGet (cleaningProc h0 r).1) = cleaning (heapGet h0 r) := by
  have hgs : ∀ (h : List DF) (d : DF), h0.length < h.length →
      heapGet (heapSet h h0.length d) h0.length = d := by
    intro h d hlt
    unfold heapGet heapSet
    rw [List.getD_eq_getElem?_getD, List.getElem?_set_self hlt]
    rfl
  have hlen0 : h0.length < (h0 ++ [heapGet h0 r]).length := by
    simp
  have hget0 : heapGet (h0 ++ [heapGet h0 r]) h0.length = heapGet h0 r := by
    unfold heapGet
    rw [List.getD_eq_getElem?_getD, getElem_concat_len]
    rfl
  unfold cleaningProc cleaning
  dsimp only
  rw [hgs _ _ hlen0, hget0]
  rw [hgs _ _ (by simp [heapSet])]
  rw [hgs _ _ (by simp [heapSet])]
  cases hdrop : dropnaSubset requiredCols (renameTitle (replaceNaN (normCols (heapGet h0 r)))) with
  | none => simp [bind, hdrop]
  | some d2 =>
    simp only [bind, hdrop]
    rw [hgs _ _ (by simp [heapSet])]
    cases hdur : setNumericCol "episodeduration(in minutes)" d2 with
    | none => simp [hdur, bind]
    | some d3 =>
      simp only [hdur]
      rw [hgs _ _ (by simp [heapSet])]
      cases hrat : setNumericCol "rating" d3 with
      | none => simp [hdur, hrat]
      | some d4 =>
        simp only [hrat]
        rw [hgs _ _ (by simp [heapSet])]
        simp only [Option.map_some', pure, Option.some.injEq]
        rw [hgs _ _ (by simp [heapSet])]
        simp [hdur, hrat]

/-! ## C3: top-15 and bottom-15 selection -/

/-- C3: on any frame (notably a cleaned one) whose `rating` column the
sort can use, the top-15 selection has length `min 15 n`, is sorted
non-increasing by the rating key, and only contains rows of the input;
the same function parameterised ascending gives the worst-15 analogue
sorted non-decreasing. -/
theorem top_and_bottom_15 :
    ∀ df outD outA, ratingVsShowLocal df = some outD → ratingVsShow2Local df = some outA →
      outD.rows.length = min 15 df.rows.length ∧
      outA.rows.length = min 15 df.rows.length ∧
      (∃ i, uniqueIdx df "rating" = some i ∧
        outD.rows.Pairwise (fun r s => ∀ x y, keyAt i r = some x → keyAt i s = some y → y ≤ x) ∧
        outA.rows.Pairwise (fun r s => ∀ x y, keyAt i r = some x → keyAt i s = some y → x ≤ y)) ∧
      (∀ r ∈ outD.rows, r ∈ df.rows) ∧
      (∀ r ∈ outA.rows, r ∈ df.rows) := by
  intro df outD outA hD hA
  unfold ratingVsShowLocal at hD
  unfold ratingVsShow2Local at hA
  cases hidx : uniqueIdx df "rating" with
  | none => rw [hidx] at hD; cases hD
  | some i =>
    rw [hidx] at hD hA
    simp only [Option.map_some', Option.some.injEq] at hD hA
    have hrD : outD.rows = (List.insertionSort (rowLeDesc i) df.rows).take 15 := by
      rw [← hD]
    have hrA : outA.rows = (List.insertionSort (rowLeAsc i) df.rows).take 15 := by
      rw [← hA]
    refine ⟨?_, ?_, ⟨i, rfl, ?_, ?_⟩, ?_, ?_⟩
    · rw [hrD, List.length_take, List.length_insertionSort]
    · rw [hrA, List.length_take, List.length_insertionSort]
    · rw [hrD]
      have hs := List.sorted_insertionSort (rowLeDesc i) df.rows
      have hp := List.Pairwise.sublist (List.take_sublist 15 _) hs
      refine hp.imp ?_
      intro r s hrs x y hx hy
      unfold rowLeDesc at hrs
      rw [hx, hy] at hrs
      simpa [optLeDesc] using hrs
    · rw [hrA]
      have hs := List.sorted_insertionSort (rowLeAsc i) df.rows
      have hp := List.Pairwise.sublist (List.take_sublist 15 _) hs
      refine hp.imp ?_
      intro r s hrs x y hx hy
      unfold rowLeAsc at hrs
      rw [hx, hy] at hrs
      simpa [optLeAsc] using hrs
    · intro r hr
      rw [hrD] at hr
      have hr2 := (List.take_sublist 15 _).subset hr
      exact (List.perm_insertionSort (rowLeDesc i) df.rows).subset hr2
    · intro r hr
      rw [hrA] at hr
      have hr2 := (List.take_sublist 15 _).subset hr
      exact (List.perm_insertionSort (rowLeAsc i) df.rows).subset hr2

/-- Witness for `top_and_bottom_15`: the two-record scenario, whose
descending sort is the frame itself and whose ascending sort swaps the
rows. -/
theorem top_and_bottom_15_witness :
    dfTwoShows.rows.length = min 15 dfTwoShows.rows.length ∧
      [Value.str "B", Value.str "Comedy", Value.num 22, Value.num 7, Value.str "2012"]
        ∈ dfTwoShows.rows := by
  have h := top_and_bottom_15 dfTwoShows dfTwoShows dfTwoShowsBottom
    (by with_unfolding_all decide) (by with_unfolding_all decide)
  exact ⟨h.1, h.2.2.2.2 _ (by with_unfolding_all decide)⟩

/-! ## C4: cleaning is idempotent -/

/-- C4: cleaning a frame that cleaning already produced changes
nothing — `clean (clean df) = clean df` whenever the first cleaning
returns a frame. -/
theorem cleaning_idempotent :
    ∀ df out, cleaning df = some out → cleaning out = some out := by
  intro df out h
  have hreq := (cleaning_some_no_na h).1
  exact cleaning_of_cleaned (cleaning_some_cols_norm h)
    (hreq "title" (by decide)) hreq (cleaning_some_no_NaN h)
    (cleaning_some_no_na h).2 (cleaning_some_numeric h)

/-- Witness for `cleaning_idempotent`: the cleaned `"N/A"` scenario is
a fixed point of cleaning. -/
theorem cleaning_idempotent_witness : cleaning dfNAscenarioOut = some dfNAscenarioOut :=
  cleaning_idempotent dfNAscenario dfNAscenarioOut (by with_unfolding_all decide)

/-! ## C6: the genre-by-year stage keeps only 2001-2019 -/

/-- C6: every record contributing to the heatmap frame (the same
year-filtered frame the per-year mean-rating line reads) carries a
`year_inicio` with `2001 <= year_inicio <= 2019`; records without an
extracted year never pass the filter. -/
theorem genre_vs_year_filter :
    ∀ df out, DF.WF df → genreVsYearLocal df = some out →
      ∃ vs, getColValsU out "year_inicio" = some vs ∧
        ∀ v ∈ vs, ∃ q, v = Value.num q ∧ 2001 ≤ q ∧ q ≤ 2019 := by
  intro df out hwf h
  unfold genreVsYearLocal at h
  simp only [bind, Option.bind_eq_some, pure, Option.some.injEq] at h
  obtain ⟨ys, hys, i, hi, gs, hgs, hout⟩ := h
  have hlen1 : (ys.map yearVal).length = df.rows.length := by
    rw [List.length_map]; exact getColValsU_length hys
  have hwf1 : DF.WF (setCol "year_inicio" (ys.map yearVal) df) := setCol_WF hwf hlen1
  have hwf2 : DF.WF { cols := (setCol "year_inicio" (ys.map yearVal) df).cols, rows := List.filter (fun r => yearInRange (cell r i)) (setCol "year_inicio" (ys.map yearVal) df).rows } := filterRows_WF hwf1
  have hlen2 : (gs.map primaryGenre).length =
      (List.filter (fun r => yearInRange (cell r i))
        (setCol "year_inicio" (ys.map yearVal) df).rows).length := by
    rw [List.length_map]
    exact getColValsU_length hgs
  rw [← hout, getColValsU_setCol_ne hwf2 hlen2 (by decide)]
  have hi2 : uniqueIdx { cols := (setCol "year_inicio" (ys.map yearVal) df).cols, rows := List.filter (fun r => yearInRange (cell r i)) (setCol "year_inicio" (ys.map yearVal) df).rows } "year_inicio" = some i := hi
  refine ⟨(List.filter (fun r => yearInRange (cell r i)) (setCol "year_inicio" (ys.map yearVal) df).rows).map (fun r => cell r i), ?_, ?_⟩
  · unfold getColValsU
    rw [hi2]
    rfl
  · intro v hv
    simp only [List.mem_map] at hv
    obtain ⟨r, hr, hv⟩ := hv
    have hfil := (List.mem_filter.mp hr).2
    cases hc : cell r i with
    | num q =>
      refine ⟨q, by rw [← hv, hc], ?_, ?_⟩ <;>
        · unfold yearInRange at hfil
          rw [hc] at hfil
          simp only [Bool.and_eq_true, decide_eq_true_eq] at hfil
          try exact hfil.1
          try exact hfil.2
    | na =>
      unfold yearInRange at hfil
      rw [hc] at hfil
      cases hfil
    | str s =>
      unfold yearInRange at hfil
      rw [hc] at hfil
      cases hfil

set_option maxRecDepth 4000 in
/-- Witness for `genre_vs_year_filter`: the two-record scenario, whose
start years 2010 and 2012 both lie inside the fixed bounds. -/
theorem genre_vs_year_filter_witness :
    ∃ vs, getColValsU dfTwoShowsYearOut "year_inicio" = some vs ∧
      ∀ v ∈ vs, ∃ q, v = Value.num q ∧ 2001 ≤ q ∧ q ≤ 2019 :=
  genre_vs_year_filter dfTwoShows dfTwoShowsYearOut
    (by intro r hr; fin_cases hr <;> rfl)
    (by with_unfolding_all decide)

/-! ## C7: primary-genre extraction (corrected) -/

/-- C7 (amended): splitting on `","` and taking the first segment gives
Drama and Comedy on the two spec examples; the guarded lambda used by
`rating_vs_genre` and `genre_vs_year` returns every non-string value
unchanged, but the unguarded split of `static_charts` line 114 raises
on every non-string value instead of passing it through. -/
theorem primary_genre_spec :
    primaryGenre (Value.str "Drama, Comedy") = Value.str "Drama" ∧
    primaryGenre (Value.str "Comedy") = Value.str "Comedy" ∧
    (∀ v : Value, (∀ s, v ≠ Value.str s) → primaryGenre v = v) ∧
    (∀ v : Value, (∀ s, v ≠ Value.str s) → splitHead v = none) := by
  refine ⟨by decide, by decide, ?_, ?_⟩
  · intro v hv
    cases v with
    | na => rfl
    | num q => rfl
    | str s => exact absurd rfl (hv s)
  · intro v hv
    cases v with
    | na => rfl
    | num q => rfl
    | str s => exact absurd rfl (hv s)

/-- Counterexample to C7 as stated: at `static_charts` the
primary-genre computation does not return a non-string value
unchanged — it raises, and the whole reporting call raises with it. -/
theorem primary_genre_unguarded_counterexample :
    splitHead Value.na = none ∧ staticChartsEffect dfNaGenre = none := by
  exact ⟨rfl, by decide⟩

/-- Witness for `primary_genre_spec`: instantiated at a null value. -/
theorem primary_genre_spec_witness :
    primaryGenre Value.na = Value.na ∧ splitHead Value.na = none :=
  ⟨primary_genre_spec.2.2.1 Value.na (fun _ hcon => Value.noConfusion hcon),
   primary_genre_spec.2.2.2 Value.na (fun _ hcon => Value.noConfusion hcon)⟩

/-! ## C9: reporting functions leave the shared frame intact -/

/-- C9: each reporting function that writes to the shared cleaned frame
(`rating_vs_genre`, `static_charts`, `genre_vs_year`) leaves the row
count and every original column (`title`, `genres`,
`episodeduration(in minutes)`, `rating`, `years`) exactly as it found
them; the only visible change is the appended derived
`generoprincipal` or `year_inicio` column. -/
theorem reporting_functions_read_only :
    ∀ df out, DF.WF df →
      ratingVsGenreEffect df = some out ∨ staticChartsEffect df = some out ∨
        genreVsYearEffect df = some out →
      out.rows.length = df.rows.length ∧
      ∀ c ∈ ["title", "genres", "episodeduration(in minutes)", "rating", "years"],
        getColValsU out c = getColValsU df c := by
  intro df out hwf h
  rcases h with h | h | h
  · unfold ratingVsGenreEffect at h
    simp only [bind, Option.bind_eq_some, pure, Option.some.injEq] at h
    obtain ⟨gs, hgs, x, hx, hout⟩ := h
    rw [← hout]
    refine preserve_of_setCol hwf ?_ (Or.inl rfl)
    rw [List.length_map]
    exact getColValsU_length hgs
  · unfold staticChartsEffect at h
    simp only [bind, Option.bind_eq_some, pure, Option.some.injEq] at h
    obtain ⟨a, ha, b, hb, gs, hgs, ps, hps, hout⟩ := h
    rw [← hout]
    refine preserve_of_setCol hwf ?_ (Or.inl rfl)
    rw [mapM_some_length hps]
    exact getColValsU_length hgs
  · unfold genreVsYearEffect at h
    simp only [bind, Option.bind_eq_some, pure, Option.some.injEq] at h
    obtain ⟨ys, hys, u, hu, hout⟩ := h
    rw [← hout]
    refine preserve_of_setCol hwf ?_ (Or.inr rfl)
    rw [List.length_map]
    exact getColValsU_length hys

/-- Witness for `reporting_functions_read_only`: `rating_vs_genre` on
the two-record scenario. -/
theorem reporting_functions_read_only_witness :
    dfTwoShowsGenreOut.rows.length = dfTwoShows.rows.length ∧
      getColValsU dfTwoShowsGenreOut "genres" = getColValsU dfTwoShows "genres" := by
  have h := reporting_functions_read_only dfTwoShows dfTwoShowsGenreOut
    (by intro r hr; fin_cases hr <;> rfl)
    (Or.inl (by with_unfolding_all decide))
  exact ⟨h.1, h.2 "genres" (by decide)⟩

/-! ## C10: cleaning never mutates its argument -/

/-- C10: run on the heap, `cleaning` copies its argument first
(line 14) and every in-place statement hits the copy, so after the call
— whether it returns or raises — the caller's frame object still holds
its original column names, cell values and rows. -/
theorem cleaning_does_not_mutate :
    ∀ h0 r, r < h0.length → heapGet (cleaningProc h0 r).1 r = heapGet h0 r := by
  intro h0 r hr
  have hne : h0.length ≠ r := Nat.ne_of_gt hr
  have hset : ∀ (h : List DF) (d : DF), heapGet (heapSet h h0.length d) r = heapGet h r := by
    intro h d
    unfold heapGet heapSet
    rw [List.getD_eq_getElem?_getD, List.getD_eq_getElem?_getD, List.getElem?_set_ne hne]
  have happ : ∀ d : DF, heapGet (h0 ++ [d]) r = heapGet h0 r := by
    intro d
    unfold heapGet
    rw [List.getD_eq_getElem?_getD, List.getD_eq_getElem?_getD, List.getElem?_append_left hr]
  unfold cleaningProc
  dsimp only
  split
  · simp only [hset, happ]
  · split
    · simp only [hset, happ]
    · split
      · simp only [hset, happ]
      · simp only [hset, happ]

/-- Witness for `cleaning_does_not_mutate`: a one-object heap holding
the two-record scenario. -/
theorem cleaning_does_not_mutate_witness :
    heapGet (cleaningProc [dfTwoShows] 0).1 0 = heapGet [dfTwoShows] 0 :=
  cleaning_does_not_mutate [dfTwoShows] 0 (by decide)
